import Mathlib

/-!
Verification development for the `tracker` app (Django project `tracker_v2`).

The definitions below are a shallow embedding of the code in
`src/tracker/views.py`, `src/tracker/models.py`, `src/tracker/forms.py` and
`src/tracker/utils.py`, specialised to a single project and a single pole
where the code operates per-project / per-pole.  Database rows are embedded
as Lean structures, querysets as lists (ordered the way the corresponding
Django `Meta.ordering` orders them), and each view's mutation of the
database as a pure state-transition function.
-/

/-- Big-endian decimal digit characters of `n`, by structural recursion on a
fuel bound so that the kernel can evaluate it. -/
def natToStrAux : Nat → Nat → List Char
  | 0, _ => []
  | fuel + 1, n =>
      if n = 0 then [] else natToStrAux fuel (n / 10) ++ [Char.ofNat (48 + n % 10)]

/-- Decimal rendering of a natural number, modelling Python's `str(n)` /
`f"{n}"` formatting (most-significant digit first, no padding, `0 ↦ "0"`). -/
def natToStr (n : Nat) : String :=
  if n = 0 then "0" else String.mk (natToStrAux n n)

/-! ## Data model

Rows of the `StageDefinition` and `Evidence` tables (`src/tracker/models.py`).
Only the columns the verified views read are embedded; `image` and
`captured_at` never influence control flow and are omitted.  GPS coordinates
are kept as the strings the view assigns (`request.POST` values, possibly
truncated, or EXIF strings). -/

structure StageDefinition where
  id : Nat
  name : String
  order : Nat
  is_required : Bool
  deriving DecidableEq

structure EvidenceRecord where
  id : Nat
  stage : StageDefinition
  gps_lat : Option String
  gps_long : Option String
  deriving DecidableEq

/-- Mutable per-pole state touched by `pole_detail` / `delete_evidence`:
the pole's evidence rows and its persisted `is_completed` flag
(`Pole.is_completed`, `src/tracker/models.py`). -/
structure PoleState where
  evidence : List EvidenceRecord
  is_completed : Bool
  deriving DecidableEq

/-! ## ProgressEngine: lock display (`pole_detail`, views.py lines 227-234)

```
previous_stage_done = True
for stage in stages:
    stage.is_locked = not previous_stage_done
    if stage.id in evidence_map: previous_stage_done = True
    else: previous_stage_done = False
```
`stages` is `pole.project.project_type.stages.all().order_by('order')` and
`evidence_map` is keyed by the stage ids having evidence on the pole.
The computed flag lives only on the in-memory objects handed to the
template; `StageDefinition` has no such column, so it is never persisted. -/

def computeLocksAux (E : List Nat) (prevDone : Bool) :
    List StageDefinition → List (StageDefinition × Bool)
  | [] => []
  | s :: rest => (s, !prevDone) :: computeLocksAux E (E.contains s.id) rest

def computeStageLocks (E : List Nat) (stages : List StageDefinition) :
    List (StageDefinition × Bool) :=
  computeLocksAux E true stages

/-! ## ProgressEngine: sequential gate (`pole_detail`, views.py lines 252-269)

```
prev_stages = StageDefinition.objects.filter(project_type=..., order__lt=target_stage.order)
missing_stages = []
for ps in prev_stages:
    if not Evidence.objects.filter(pole=pole, stage=ps).exists():
        missing_stages.append(ps.name)
if missing_stages: reject
```
`prev_stages` is returned in `Meta.ordering = ['order']` order, i.e. the
ascending-by-`order` sublist of the project type's stage list. -/

def prevStages (stages : List StageDefinition) (target : StageDefinition) :
    List StageDefinition :=
  stages.filter (fun s => s.order < target.order)

def missingStages (stages : List StageDefinition) (target : StageDefinition)
    (E : List Nat) : List StageDefinition :=
  (prevStages stages target).filter (fun s => !(E.contains s.id))

def missingStageNames (stages : List StageDefinition) (target : StageDefinition)
    (E : List Nat) : List String :=
  (missingStages stages target E).map (fun s => s.name)

/-! ## ProgressEngine: completion recompute (views.py lines 321-324 and 353-356)

```
required_count = StageDefinition.objects.filter(project_type=..., is_required=True).count()
uploaded_count = Evidence.objects.filter(pole=pole, stage__is_required=True).values('stage').distinct().count()
pole.is_completed = (uploaded_count >= required_count)
```
-/

def recomputeCompleted (stages : List StageDefinition) (ev : List EvidenceRecord) : Bool :=
  let required_count := (stages.filter (fun s => s.is_required)).length
  let uploaded_count := ((ev.filter (fun e => e.stage.is_required)).map (fun e => e.stage.id)).dedup.length
  required_count ≤ uploaded_count

/-! ## Evidence upload / delete state transitions

`pole_detail` POST (views.py lines 236-332) and `delete_evidence`
(views.py lines 339-358), embedded as pure transitions on `PoleState`.
The externals are represented as inputs: the client's POSTed stage id,
coordinate strings and form validity, the GeoTagger's EXIF result
(`get_gps_from_image`, an external that either yields both coordinates or
nothing), and the primary key the database assigns to the new row.
Watermarking only transforms the stored image bytes and is omitted. -/

inductive StageIdInput where
  | absent
  | malformed
  | given (id : Nat)
  deriving DecidableEq

inductive PostOutcome where
  | invalidStageId
  | stageNotFound
  | sequenceLocked (missing : List String)
  | uploadSuccess
  | uploadFailed
  | saveError
  deriving DecidableEq

/-- Model of `lat = lat[:20] if lat and len(lat) > 20` (views.py lines 248-249):
the view truncates its local copy of an oversized coordinate string to the
first 20 characters.  The raw POSTed string is what `EvidenceForm` still
validates (see `evidenceFormValid`). -/
def truncate20 : Option String → Option String
  | none => none
  | some s => if 20 < s.length then some (String.mk (s.data.take 20)) else some s

/-- Python truthiness of an optional string: `None` and `""` are falsy. -/
def pyTruthy : Option String → Bool
  | none => false
  | some s => !(s == "")

/-- EXIF fallback (views.py lines 287-295): when either client coordinate is
falsy and a file was posted, `get_gps_from_image` may supply both. -/
def exifFallback (lat lon : Option String) (exifGps : Option (String × String))
    (hasFile : Bool) : Option String × Option String :=
  if (!(pyTruthy lat) || !(pyTruthy lon)) && hasFile then
    match exifGps with
    | some p => (some p.1, some p.2)
    | none => (lat, lon)
  else (lat, lon)

/-- Coordinates assigned by the view when both are truthy (views.py lines
297-299).  Modelling caveat: when not both are truthy the code keeps
whatever the model form already parsed into the `form.save(commit=False)`
instance from the same POST (e.g. a valid lat with an empty lon persists
the parsed lat); that parsed value is not modelled and the columns are
rendered `none` here.  No theorem in this file reads the stored columns in
that region. -/
def persistedGps (lat lon : Option String) : Option String × Option String :=
  if pyTruthy lat && pyTruthy lon then (lat, lon) else (none, none)

/-- Modelled from the Django external validating `EvidenceForm`
(forms.py lines 5-12) against the `Evidence.gps_lat` / `gps_long`
declarations `DecimalField(max_digits=9, decimal_places=6)` (models.py
lines 96-97): a sufficient condition for a POSTed coordinate string to fail
field validation.  A plain all-digit string is parsed as a whole-number
`Decimal`, and Django's `DecimalValidator` rejects it when its significant
integer digits exceed `max_digits - decimal_places = 3`.  An absent or
empty value passes (the field is `blank=True`, hence not required).
`false` here does not mean the field passes every finer check — those are
absorbed into `restValid` in `evidenceFormValid`. -/
def gpsFieldRejects : Option String → Bool
  | none => false
  | some s =>
      !s.data.isEmpty && s.data.all (fun c => c.isDigit) &&
        decide (3 < (s.data.dropWhile (fun c => c == '0')).length)

/-- Modelled from the Django external: the outcome of
`EvidenceForm(request.POST, request.FILES).is_valid()` (views.py lines
278-280).  The form validates the image field and both raw POSTed
coordinate strings; `restValid` stands for every check other than the
`gpsFieldRejects` precision test (image presence, and the finer `Decimal`
checks on strings that are not plain over-long digit runs), so the form is
certainly invalid whenever either coordinate string trips
`gpsFieldRejects`. -/
def evidenceFormValid (restValid : Bool) (latRaw lonRaw : Option String) : Bool :=
  restValid && !(gpsFieldRejects latRaw) && !(gpsFieldRejects lonRaw)

/-- The POST branch of `pole_detail` (views.py lines 236-332).  Returns the
new pole state together with the outcome surfaced to the user.  The stage
lookup (`get_object_or_404(StageDefinition, id=stage_id)`) is resolved
against the pole's project type's stage list `stages`, which is assumed
ordered by `order` as Django's `Meta.ordering` guarantees.  `formValid` is
the outcome of `EvidenceForm.is_valid()` on the same POST; it is passed as
an input (over-approximating the program with both values), and the
faithful instantiation is `evidenceFormValid restValid latRaw lonRaw`,
which the claim-C4 theorem uses. -/
def poleDetailPost (stages : List StageDefinition) (st : PoleState)
    (input : StageIdInput) (latRaw lonRaw : Option String)
    (exifGps : Option (String × String)) (hasFile : Bool)
    (formValid : Bool) (newEvId : Nat) : PoleState × PostOutcome :=
  match input with
  | .malformed => (st, .invalidStageId)
  | .absent =>
      if formValid then (st, .saveError) else (st, .uploadFailed)
  | .given sid =>
      match stages.find? (fun s => s.id == sid) with
      | none => (st, .stageNotFound)
      | some target =>
          let missing := missingStageNames stages target (st.evidence.map (fun e => e.stage.id))
          if missing.isEmpty then
            let ev1 := st.evidence.filter (fun e => !(e.stage.id == target.id))
            if formValid then
              let lat0 := truncate20 latRaw
              let lon0 := truncate20 lonRaw
              let ll := exifFallback lat0 lon0 exifGps hasFile
              let gg := persistedGps ll.1 ll.2
              let ev2 := ev1 ++ [⟨newEvId, target, gg.1, gg.2⟩]
              ({ evidence := ev2, is_completed := recomputeCompleted stages ev2 }, .uploadSuccess)
            else
              ({ evidence := ev1, is_completed := st.is_completed }, .uploadFailed)
          else (st, .sequenceLocked missing)

/-- The `delete_evidence` view (views.py lines 339-358): looks the record up
by primary key (404 leaves everything untouched), deletes it, then
recomputes and persists `is_completed`. -/
def deleteEvidence (stages : List StageDefinition) (st : PoleState) (evId : Nat) : PoleState :=
  if st.evidence.any (fun e => e.id == evId) then
    let ev1 := st.evidence.filter (fun e => !(e.id == evId))
    { evidence := ev1, is_completed := recomputeCompleted stages ev1 }
  else st

/-! ## IdentifierAllocator (`create_project_item`, views.py lines 162-212) -/

/-- Row of the `Pole` table as far as item creation is concerned, together
with the `ItemFieldValue` captured for the project's grouping-key field
(`none` when the project has no grouping field). -/
structure PoleRec where
  id : Nat
  identifier : String
  groupValue : Option String
  deriving DecidableEq

/-- Per-project state read and written by `create_project_item`. -/
structure ProjectState where
  name : String
  unit_name : String
  poles : List PoleRec
  deriving DecidableEq

/-- Candidate identifier tried at step `k` of the uniqueness loop
(views.py lines 195-199): step 0 is the base candidate itself, step `k ≥ 1`
is `f"{base}-{k}"`. -/
def identifierCandidate (base : String) (k : Nat) : String :=
  if k = 0 then base else base ++ "-" ++ natToStr k

/-- The `while project.poles.filter(identifier=new_identifier).exclude(id=pole.id).exists()`
loop: starting at step `k`, return the first step whose candidate is not
among the other poles' identifiers.  The loop in the source is unbounded;
`uniquify` runs it with provably sufficient fuel. -/
def firstFreeStep (existing : List String) (base : String) : Nat → Nat → Option Nat
  | _, 0 => none
  | k, fuel + 1 =>
      if existing.contains (identifierCandidate base k) then
        firstFreeStep existing base (k + 1) fuel
      else some k

def uniquify (existing : List String) (base : String) : String :=
  match firstFreeStep existing base 0 (existing.length + 2) with
  | some k => identifierCandidate base k
  | none => base

/-- Candidate identifier computed by views.py lines 182-193, evaluated on the
pole list `poles1` as it stands after the new pole and its field values were
inserted (the source counts rows at exactly that point).  `gv` is the
captured grouping value (`none` when the project has no grouping field). -/
def candidateIdentifier (name unit_name : String) (poles1 : List PoleRec)
    (gv : Option String) : String :=
  match gv with
  | some v =>
      if v == "" then unit_name ++ " #" ++ natToStr poles1.length
      else
        name ++ "_" ++ v ++ " #" ++ natToStr (poles1.countP (fun p => p.groupValue == some v))
  | none => unit_name ++ " #" ++ natToStr poles1.length

/-- The successful-POST path of `create_project_item` (views.py lines
167-209): create the pole with a temporary identifier, store its field
values, compute the candidate identifier, make it unique among the other
poles of the project, and save it on the new pole.  `newPoleId` is the
primary key the database assigns. -/
def createItem (st : ProjectState) (gv : Option String) (newPoleId : Nat) : ProjectState :=
  let tempId := "TEMP-" ++ natToStr (st.poles.length + 1)
  let poles1 := st.poles ++ [⟨newPoleId, tempId, gv⟩]
  let candidate := candidateIdentifier st.name st.unit_name poles1 gv
  let existing := (poles1.filter (fun p => !(p.id == newPoleId))).map (fun p => p.identifier)
  let finalId := uniquify existing candidate
  { st with poles := st.poles ++ [⟨newPoleId, finalId, gv⟩] }

/-! ## AccessPolicy (`check_project_access`, views.py lines 25-40) -/

structure UserRec where
  id : Nat
  username : String
  is_superuser : Bool
  is_staff : Bool
  deriving DecidableEq

/-- Outcome of a project-scoped permission check.  `denied` carries the
security-audit line written by `logger.warning` and corresponds to the
`PermissionDenied` exception (HTTP 403); `notFound` corresponds to
`get_object_or_404` raising `Http404` and is a distinct outcome the check
itself never produces. -/
inductive AccessResult where
  | allowed
  | denied (securityLog : String)
  | notFound
  deriving DecidableEq

/-- Security log line of views.py line 39. -/
def securityAlertLine (u : UserRec) (projectId : Nat) : String :=
  "SECURITY ALERT: User " ++ u.username ++ " (ID: " ++ natToStr u.id ++
    ") tried to access Project " ++ natToStr projectId ++ " without permission."

def check_project_access (u : UserRec) (projectId : Nat)
    (contractorIds : List Nat) : AccessResult :=
  if u.is_superuser || u.is_staff then .allowed
  else if contractorIds.contains u.id then .allowed
  else .denied (securityAlertLine u projectId)

/-! ## AuditLog CSV export (`export_project_logs`, views.py lines 124-147)

The `ProjectLog` model itself is not among the files under `src/`; its row
shape is modelled from the spec. -/

/-- Modelled from the spec: the `ProjectLog` model (an "AuditLogEntry:
immutable record (project, actor-or-null, action kind, target label,
free-text details, optional GPS, timestamp)") is imported by views.py but
its class is not present in `src/tracker/models.py`.  The timestamp is the
wall-clock capture time broken into calendar fields, as `strftime` consumes
it. -/
structure Timestamp where
  year : Nat
  month : Nat
  day : Nat
  hour : Nat
  minute : Nat
  second : Nat
  deriving DecidableEq

structure LogEntry where
  timestamp : Timestamp
  user : Option String
  action : String
  target : String
  details : String
  gps_lat : Option String
  gps_long : Option String
  deriving DecidableEq

/-- Zero-pad a number to two digits, as Python `strftime`'s `%m %d %H %M %S`
directives do. -/
def pad2 (n : Nat) : String :=
  if n < 10 then "0" ++ natToStr n else natToStr n

/-- Zero-pad a number to four digits, as `strftime`'s `%Y` does. -/
def pad4 (n : Nat) : String :=
  if n < 10 then "000" ++ natToStr n
  else if n < 100 then "00" ++ natToStr n
  else if n < 1000 then "0" ++ natToStr n
  else natToStr n

/-- Model of `log.timestamp.strftime("%Y-%m-%d %H:%M:%S")` (views.py line
138), per the Python library's documented zero-padded directives. -/
def strftimeTs (t : Timestamp) : String :=
  pad4 t.year ++ "-" ++ pad2 t.month ++ "-" ++ pad2 t.day ++ " " ++
    pad2 t.hour ++ ":" ++ pad2 t.minute ++ ":" ++ pad2 t.second

/-- Model of `log.user.username if log.user else "System/Client"`
(views.py line 139). -/
def userCell : Option String → String
  | some u => u
  | none => "System/Client"

/-- Model of how `csv.writer` renders an optional cell: `None` becomes the
empty field. -/
def optCell : Option String → String
  | some s => s
  | none => ""

/-- Header row written at views.py line 134. -/
def csvHeaderRow : List String :=
  ["Timestamp", "User", "Action", "Target", "Details", "Latitude", "Longitude"]

/-- Data row written for each log entry (views.py lines 136-145). -/
def logCsvRow (e : LogEntry) : List String :=
  [strftimeTs e.timestamp, userCell e.user, e.action, e.target, e.details,
    optCell e.gps_lat, optCell e.gps_long]

/-- The full CSV export: header row followed by one row per log entry. -/
def exportProjectLogs (logs : List LogEntry) : List (List String) :=
  csvHeaderRow :: logs.map logCsvRow

/-! ## Specification-side predicates -/

/-- The completion property claimed for `is_completed`: every required stage
of the project type carries exactly one evidence record on the pole. -/
def requiredExactlyOne (stages : List StageDefinition) (ev : List EvidenceRecord) : Prop :=
  ∀ s ∈ stages, s.is_required = true → ev.countP (fun e => e.stage.id == s.id) = 1

instance (stages : List StageDefinition) (ev : List EvidenceRecord) :
    Decidable (requiredExactlyOne stages ev) := by
  unfold requiredExactlyOne
  infer_instance

/-- Per-(pole, stage) uniqueness of evidence rows: the stage ids of the
pole's evidence are pairwise distinct. -/
def perStageUnique (ev : List EvidenceRecord) : Prop :=
  (ev.map (fun e => e.stage.id)).Nodup

instance (ev : List EvidenceRecord) : Decidable (perStageUnique ev) := by
  unfold perStageUnique
  infer_instance

/-- Well-formedness of a stage list as produced by a `StageDefinition`
queryset: primary keys are unique and rows come ascending in the unique
`order` column (the spec's per-project-type invariant). -/
def stagesWF (stages : List StageDefinition) : Prop :=
  (stages.map (fun s => s.id)).Nodup ∧ stages.Pairwise (fun a b => a.order < b.order)

/-- Every evidence row on the pole points at a stage of the pole's project
type. -/
def evidenceStagesFrom (stages : List StageDefinition) (ev : List EvidenceRecord) : Prop :=
  ∀ e ∈ ev, e.stage ∈ stages

instance (stages : List StageDefinition) (ev : List EvidenceRecord) :
    Decidable (evidenceStagesFrom stages ev) := by
  unfold evidenceStagesFrom
  infer_instance

/-- A string occurs verbatim inside another. -/
def containsSubstr (s t : String) : Prop :=
  ∃ pre post, s = pre ++ t ++ post

/-- A string made of decimal digit characters only. -/
def digitsOnly (s : String) : Prop :=
  ∀ c ∈ s.data, c.isDigit = true

/-- Shape predicate for `"YYYY-MM-DD HH:MM:SS"`: a 4-digit year and five
2-digit fields joined by the literal separators. -/
def tsShaped (s : String) : Prop :=
  ∃ y mo d h mi se : String,
    y.length = 4 ∧ mo.length = 2 ∧ d.length = 2 ∧ h.length = 2 ∧
    mi.length = 2 ∧ se.length = 2 ∧
    digitsOnly y ∧ digitsOnly mo ∧ digitsOnly d ∧ digitsOnly h ∧
    digitsOnly mi ∧ digitsOnly se ∧
    s = y ++ "-" ++ mo ++ "-" ++ d ++ " " ++ h ++ ":" ++ mi ++ ":" ++ se

/-! ## Decimal-string lemmas -/

theorem natToStrAux_eq_digits (fuel : Nat) :
    ∀ n, n ≤ fuel →
      natToStrAux fuel n = ((Nat.digits 10 n).map (fun d => Char.ofNat (48 + d))).reverse := by
  induction fuel with
  | zero =>
      intro n hn
      have : n = 0 := Nat.le_zero.mp hn
      simp [this, natToStrAux]
  | succ fuel ih =>
      intro n hn
      by_cases h0 : n = 0
      · simp [h0, natToStrAux]
      · have hdiv : n / 10 ≤ fuel := by
          have h1 : n / 10 < n := Nat.div_lt_self (Nat.pos_of_ne_zero h0) (by norm_num)
          omega
        have hrec := ih (n / 10) hdiv
        rw [Nat.digits_def' (b := 10) (by norm_num) (Nat.pos_of_ne_zero h0)]
        simp [natToStrAux, h0, hrec]

/-- Characterisation of `natToStr` through `Nat.digits`, used by all the
proofs about decimal strings. -/
theorem natToStr_eq (n : Nat) :
    natToStr n =
      if n = 0 then "0"
      else String.mk (((Nat.digits 10 n).map (fun d => Char.ofNat (48 + d))).reverse) := by
  unfold natToStr
  by_cases h0 : n = 0
  · simp [h0]
  · simp [h0, natToStrAux_eq_digits n n le_rfl]

/-- Digit characters are decoded by subtracting 48. -/
theorem digitChar_left_inverse : ∀ d, d < 10 → (Char.ofNat (48 + d)).toNat - 48 = d := by decide

theorem digitChar_isDigit : ∀ d, d < 10 → (Char.ofNat (48 + d)).isDigit = true := by decide

/-- Reading the characters of `natToStr n` back as digits recovers
`Nat.digits 10 n` (nonzero case). -/
theorem natToStr_decode (n : Nat) (hn : n ≠ 0) :
    ((natToStr n).data.reverse).map (fun c => c.toNat - 48) = Nat.digits 10 n := by
  rw [natToStr_eq]
  simp [hn]
  have h1 : (Nat.digits 10 n).map
      ((fun c => c.toNat - 48) ∘ (fun d => Char.ofNat (48 + d))) = (Nat.digits 10 n).map id := by
    apply List.map_congr_left
    intro d hd
    exact digitChar_left_inverse d (Nat.digits_lt_base (by norm_num) hd)
  rw [← List.map_map]
  simpa using h1

theorem natToStr_injective : Function.Injective natToStr := by
  intro m n h
  by_cases hm : m = 0 <;> by_cases hn : n = 0
  · rw [hm, hn]
  · exfalso
    apply hn
    have hd := natToStr_decode n hn
    rw [← h, hm] at hd
    have hd0 : Nat.digits 10 n = [0] := by
      rw [← hd]
      rfl
    have := Nat.ofDigits_digits 10 n
    rw [hd0] at this
    simpa using this.symm
  · exfalso
    apply hm
    have hd := natToStr_decode m hm
    rw [h, hn] at hd
    have hd0 : Nat.digits 10 m = [0] := by
      rw [← hd]
      rfl
    have := Nat.ofDigits_digits 10 m
    rw [hd0] at this
    simpa using this.symm
  · have hd1 := natToStr_decode m hm
    have hd2 := natToStr_decode n hn
    rw [h] at hd1
    rw [hd2] at hd1
    have := Nat.ofDigits_digits 10 m
    rw [← hd1, Nat.ofDigits_digits 10 n] at this
    exact this.symm

theorem natToStr_length_of_lt_ten {n : Nat} (h : n < 10) : (natToStr n).length = 1 := by
  rw [natToStr_eq]
  by_cases hn : n = 0
  · rw [if_pos hn]
    rfl
  · simp only [hn, if_false]
    have hlen : (Nat.digits 10 n).length = 1 := by
      rw [Nat.digits_len 10 n (by norm_num) hn]
      simp [Nat.log_eq_zero_iff, h]
    show ((Nat.digits 10 n).map (fun d => Char.ofNat (48 + d))).reverse.length = 1
    simp [hlen]

theorem natToStr_length_eq {n : Nat} (hn : n ≠ 0) :
    (natToStr n).length = Nat.log 10 n + 1 := by
  rw [natToStr_eq]
  simp only [hn, if_false]
  show ((Nat.digits 10 n).map (fun d => Char.ofNat (48 + d))).reverse.length = _
  simp [Nat.digits_len 10 n (by norm_num) hn]

theorem natToStr_digitsOnly (n : Nat) : ∀ c ∈ (natToStr n).data, c.isDigit = true := by
  intro c hc
  rw [natToStr_eq] at hc
  by_cases hn : n = 0
  · simp [hn] at hc
    rw [hc]
    decide
  · simp only [hn, if_false] at hc
    have hc2 : c ∈ (Nat.digits 10 n).map (fun d => Char.ofNat (48 + d)) := by
      have : c ∈ ((Nat.digits 10 n).map (fun d => Char.ofNat (48 + d))).reverse := hc
      simpa using this
    obtain ⟨d, hd, hcd⟩ := List.mem_map.mp hc2
    rw [← hcd]
    exact digitChar_isDigit d (Nat.digits_lt_base (by norm_num) hd)

/-! ## Lock-state lemmas (claim C2) -/

theorem computeLocksAux_map_fst (E : List Nat) (stages : List StageDefinition) :
    ∀ b, (computeLocksAux E b stages).map Prod.fst = stages := by
  induction stages with
  | nil => intro b; rfl
  | cons s rest ih =>
      intro b
      simp [computeLocksAux, ih]

theorem computeLocksAux_head (E : List Nat) (stages : List StageDefinition) :
    ∀ b p, (computeLocksAux E b stages)[0]? = some p → p.2 = !b := by
  cases stages with
  | nil => intro b p h; simp [computeLocksAux] at h
  | cons s rest =>
      intro b p h
      simp [computeLocksAux] at h
      rw [← h]

theorem computeLocksAux_succ (E : List Nat) (stages : List StageDefinition) :
    ∀ b i p q, (computeLocksAux E b stages)[i + 1]? = some p → stages[i]? = some q →
      p.2 = !(E.contains q.id) := by
  induction stages with
  | nil => intro b i p q h _; simp [computeLocksAux] at h
  | cons s rest ih =>
      intro b i p q hp hq
      cases i with
      | zero =>
          simp at hq
          have hp0 : (computeLocksAux E (E.contains s.id) rest)[0]? = some p := by
            simpa [computeLocksAux] using hp
          rw [computeLocksAux_head E rest _ p hp0, hq]
      | succ j =>
          have hp0 : (computeLocksAux E (E.contains s.id) rest)[j + 1]? = some p := by
            simpa [computeLocksAux] using hp
          have hq0 : rest[j]? = some q := by simpa using hq
          exact ih _ j p q hp0 hq0

/-- C2: the displayed lock computation marks the stage at position 0
unlocked always, and for `i > 0` marks the stage at position `i` locked iff
the stage at position `i - 1` has no evidence on the item; the lock list is
a pure function of the ordered stage list and the evidence set, recomputed
on every view and persisted nowhere (`PoleState` has no lock field). -/
theorem stage_locks_spec (E : List Nat) (stages : List StageDefinition) :
    (computeStageLocks E stages).map Prod.fst = stages
    ∧ (∀ p, (computeStageLocks E stages)[0]? = some p → p.2 = false)
    ∧ (∀ i p q, (computeStageLocks E stages)[i + 1]? = some p → stages[i]? = some q →
        (p.2 = true ↔ E.contains q.id = false)) := by
  refine ⟨computeLocksAux_map_fst E stages true, ?_, ?_⟩
  · intro p h
    simpa using computeLocksAux_head E stages true p h
  · intro i p q hp hq
    rw [computeLocksAux_succ E stages true i p q hp hq]
    cases E.contains q.id <;> simp

/-- Witness for C2 at a concrete two-stage sequence with no evidence: the
second stage comes out locked because the first has no evidence. -/
theorem stage_locks_spec_witness :
    ((computeStageLocks [] [⟨1, "A", 0, true⟩, ⟨2, "B", 1, true⟩])[1]?
        = some (⟨2, "B", 1, true⟩, true))
    ∧ (([⟨1, "A", 0, true⟩, ⟨2, "B", 1, true⟩] : List StageDefinition)[0]? = some ⟨1, "A", 0, true⟩)
    ∧ (true = true ↔ ([] : List Nat).contains (1 : Nat) = false) := by
  refine ⟨by decide, by decide, ?_⟩
  exact (stage_locks_spec [] [⟨1, "A", 0, true⟩, ⟨2, "B", 1, true⟩]).2.2 0
    (⟨2, "B", 1, true⟩, true) ⟨1, "A", 0, true⟩ (by decide) (by decide)

/-! ## Sequential-gate lemmas (claim C1) -/

theorem missingStageNames_mem (stages : List StageDefinition) (target : StageDefinition)
    (E : List Nat) (n : String) :
    n ∈ missingStageNames stages target E ↔
      ∃ s ∈ stages, s.order < target.order ∧ E.contains s.id = false ∧ s.name = n := by
  simp only [missingStageNames, missingStages, prevStages, List.mem_map, List.mem_filter,
    Bool.not_eq_true', decide_eq_true_eq]
  constructor
  · rintro ⟨s, ⟨⟨hs, hord⟩, hcon⟩, hname⟩
    exact ⟨s, hs, hord, hcon, hname⟩
  · rintro ⟨s, hs, hord, hcon, hname⟩
    exact ⟨s, ⟨⟨hs, hord⟩, hcon⟩, hname⟩

theorem missingStageNames_ne_nil (stages : List StageDefinition) (target : StageDefinition)
    (E : List Nat) :
    missingStageNames stages target E ≠ [] ↔
      ∃ s ∈ stages, s.order < target.order ∧ E.contains s.id = false := by
  constructor
  · intro h
    obtain ⟨n, hn⟩ := List.exists_mem_of_ne_nil _ h
    obtain ⟨s, hs, hordLt, hcon, _⟩ := (missingStageNames_mem stages target E n).mp hn
    exact ⟨s, hs, hordLt, hcon⟩
  · rintro ⟨s, hs, hordLt, hcon⟩ hnil
    have hmem := (missingStageNames_mem stages target E s.name).mpr ⟨s, hs, hordLt, hcon, rfl⟩
    rw [hnil] at hmem
    simp at hmem

/-- C1: an evidence upload targeting stage `target` is rejected by the
sequential gate iff some stage of the project type with smaller `order`
has no evidence on the pole, regardless of any stage's `is_required` flag
(the gate never reads it); the rejection carries exactly the names of all
such missing stages, listed ascending in stage `order`; on rejection the
pole state is returned unchanged. -/
theorem upload_sequence_gate (stages : List StageDefinition) (target : StageDefinition)
    (E : List Nat) (hord : stages.Pairwise (fun a b => a.order < b.order)) :
    (missingStageNames stages target E ≠ [] ↔
      ∃ s ∈ stages, s.order < target.order ∧ E.contains s.id = false)
    ∧ (∀ n, n ∈ missingStageNames stages target E ↔
        ∃ s ∈ stages, s.order < target.order ∧ E.contains s.id = false ∧ s.name = n)
    ∧ missingStageNames stages target E = (missingStages stages target E).map (fun s => s.name)
    ∧ (missingStages stages target E).Pairwise (fun a b => a.order < b.order)
    ∧ (∀ (st : PoleState) (sid : Nat) latRaw lonRaw exifGps hasFile formValid newEvId,
        stages.find? (fun s => s.id == sid) = some target →
        missingStageNames stages target (st.evidence.map fun e => e.stage.id) ≠ [] →
        poleDetailPost stages st (.given sid) latRaw lonRaw exifGps hasFile formValid newEvId
          = (st, .sequenceLocked
              (missingStageNames stages target (st.evidence.map fun e => e.stage.id)))) := by
  refine ⟨missingStageNames_ne_nil stages target E, missingStageNames_mem stages target E, rfl,
    ?_, ?_⟩
  · exact hord.sublist ((List.filter_sublist _).trans (List.filter_sublist _))
  · intro st sid latRaw lonRaw exifGps hasFile formValid newEvId hfind hne
    have hempty : (missingStageNames stages target
        (st.evidence.map fun e => e.stage.id)).isEmpty = false := by
      rw [List.isEmpty_eq_false_iff_exists_mem]
      obtain ⟨n, hn⟩ := List.exists_mem_of_ne_nil _ hne
      exact ⟨n, hn⟩
    simp [poleDetailPost, hfind, hempty]

/-- Witness for C1: with stages Excavation(order 0) and Planting(order 1)
and no evidence, targeting Planting is rejected and the missing list is
exactly ["Excavation"]. -/
theorem upload_sequence_gate_witness :
    ([⟨1, "Excavation", 0, true⟩, ⟨2, "Planting", 1, false⟩] : List StageDefinition).Pairwise
      (fun a b => a.order < b.order)
    ∧ (missingStageNames [⟨1, "Excavation", 0, true⟩, ⟨2, "Planting", 1, false⟩]
        ⟨2, "Planting", 1, false⟩ [] ≠ [] ↔
      ∃ s ∈ ([⟨1, "Excavation", 0, true⟩, ⟨2, "Planting", 1, false⟩] : List StageDefinition),
        s.order < 1 ∧ List.contains [] s.id = false) := by
  refine ⟨by decide, ?_⟩
  exact (upload_sequence_gate [⟨1, "Excavation", 0, true⟩, ⟨2, "Planting", 1, false⟩]
    ⟨2, "Planting", 1, false⟩ [] (by decide)).1

/-! ## Completion-recompute lemmas (claim C3) -/

theorem countP_stage_le_one {ev : List EvidenceRecord} (huniq : perStageUnique ev)
    (x : Nat) : ev.countP (fun e => e.stage.id == x) ≤ 1 := by
  have h1 : ev.countP (fun e => e.stage.id == x)
      = (ev.map (fun e => e.stage.id)).count x := by
    rw [List.count, List.countP_map]
    rfl
  rw [h1]
  exact List.nodup_iff_count_le_one.mp huniq x

theorem recomputeCompleted_iff (stages : List StageDefinition) (ev : List EvidenceRecord)
    (hids : (stages.map (fun s => s.id)).Nodup)
    (hfrom : evidenceStagesFrom stages ev)
    (huniq : perStageUnique ev) :
    recomputeCompleted stages ev = true ↔ requiredExactlyOne stages ev := by
  classical
  set R := stages.filter (fun s => s.is_required) with hR
  set evR := ev.filter (fun e => e.stage.is_required) with hevR
  have hevRnodup : ((evR.map (fun e => e.stage.id))).Nodup :=
    huniq.sublist ((List.filter_sublist ev).map (fun e => e.stage.id))
  have hRnodup : (R.map (fun s => s.id)).Nodup :=
    hids.sublist ((List.filter_sublist stages).map (fun s => s.id))
  have hcount : recomputeCompleted stages ev = true ↔ R.length ≤ evR.length := by
    unfold recomputeCompleted
    rw [List.dedup_eq_self.mpr hevRnodup]
    simp
  -- Finsets of required stage ids and of evidenced required stage ids
  have hcardA : (R.map (fun s => s.id)).toFinset.card = R.length := by
    rw [List.toFinset_card_of_nodup hRnodup, List.length_map]
  have hcardB : ((evR.map (fun e => e.stage.id))).toFinset.card = evR.length := by
    rw [List.toFinset_card_of_nodup hevRnodup, List.length_map]
  have hBA : ((evR.map (fun e => e.stage.id))).toFinset ⊆ (R.map (fun s => s.id)).toFinset := by
    intro x hx
    rw [List.mem_toFinset, List.mem_map] at hx
    obtain ⟨e, he, hex⟩ := hx
    rw [hevR, List.mem_filter] at he
    rw [List.mem_toFinset, List.mem_map]
    refine ⟨e.stage, ?_, hex⟩
    rw [hR, List.mem_filter]
    exact ⟨hfrom e he.1, he.2⟩
  rw [hcount]
  constructor
  · -- counts reached: every required stage has exactly one record
    intro hle
    have hsub : (R.map (fun s => s.id)).toFinset ⊆ ((evR.map (fun e => e.stage.id))).toFinset := by
      have : ((evR.map (fun e => e.stage.id))).toFinset = (R.map (fun s => s.id)).toFinset :=
        Finset.eq_of_subset_of_card_le hBA (by rw [hcardA, hcardB]; exact hle)
      rw [this]
    intro s hs hreq
    have hsR : s ∈ R := by
      rw [hR, List.mem_filter]
      exact ⟨hs, hreq⟩
    have hsid : s.id ∈ ((evR.map (fun e => e.stage.id))).toFinset := by
      apply hsub
      rw [List.mem_toFinset, List.mem_map]
      exact ⟨s, hsR, rfl⟩
    rw [List.mem_toFinset, List.mem_map] at hsid
    obtain ⟨e, he, hex⟩ := hsid
    have hepos : 0 < ev.countP (fun e => e.stage.id == s.id) := by
      rw [List.countP_pos_iff]
      refine ⟨e, (List.filter_sublist ev).subset he, ?_⟩
      simp [hex]
    have := countP_stage_le_one huniq s.id
    omega
  · -- every required stage evidenced once: counts reached
    intro hone
    have hAB : (R.map (fun s => s.id)).toFinset ⊆ ((evR.map (fun e => e.stage.id))).toFinset := by
      intro x hx
      rw [List.mem_toFinset, List.mem_map] at hx
      obtain ⟨s, hsR, hsx⟩ := hx
      have hsmem : s ∈ stages := (List.filter_sublist stages).subset hsR
      have hreq : s.is_required = true := by
        rw [hR, List.mem_filter] at hsR
        exact hsR.2
      have hpos : 0 < ev.countP (fun e => e.stage.id == s.id) := by
        rw [hone s hsmem hreq]
        norm_num
      rw [List.countP_pos_iff] at hpos
      obtain ⟨e, he, heq⟩ := hpos
      have heid : e.stage.id = s.id := by simpa using heq
      have hestage : e.stage = s :=
        List.inj_on_of_nodup_map hids (hfrom e he) hsmem heid
      rw [List.mem_toFinset, List.mem_map]
      refine ⟨e, ?_, by rw [heid, hsx]⟩
      rw [hevR, List.mem_filter]
      exact ⟨he, by rw [hestage]; exact hreq⟩
    have := Finset.card_le_card hAB
    rw [hcardA, hcardB] at this
    exact this

theorem poleDetailPost_success_eq (stages : List StageDefinition) (st : PoleState)
    (sid : Nat) (target : StageDefinition) (latRaw lonRaw : Option String)
    (exifGps : Option (String × String)) (hasFile : Bool) (newEvId : Nat)
    (hfind : stages.find? (fun s => s.id == sid) = some target)
    (hmiss : (missingStageNames stages target (st.evidence.map fun e => e.stage.id)).isEmpty
      = true) :
    poleDetailPost stages st (.given sid) latRaw lonRaw exifGps hasFile true newEvId =
      ({ evidence := (st.evidence.filter (fun e => !(e.stage.id == target.id))) ++
            [⟨newEvId, target,
              (persistedGps (exifFallback (truncate20 latRaw) (truncate20 lonRaw) exifGps hasFile).1
                (exifFallback (truncate20 latRaw) (truncate20 lonRaw) exifGps hasFile).2).1,
              (persistedGps (exifFallback (truncate20 latRaw) (truncate20 lonRaw) exifGps hasFile).1
                (exifFallback (truncate20 latRaw) (truncate20 lonRaw) exifGps hasFile).2).2⟩],
         is_completed := recomputeCompleted stages
            ((st.evidence.filter (fun e => !(e.stage.id == target.id))) ++
              [⟨newEvId, target,
                (persistedGps (exifFallback (truncate20 latRaw) (truncate20 lonRaw) exifGps hasFile).1
                  (exifFallback (truncate20 latRaw) (truncate20 lonRaw) exifGps hasFile).2).1,
                (persistedGps (exifFallback (truncate20 latRaw) (truncate20 lonRaw) exifGps hasFile).1
                  (exifFallback (truncate20 latRaw) (truncate20 lonRaw) exifGps hasFile).2).2⟩]) },
       .uploadSuccess) := by
  simp [poleDetailPost, hfind, hmiss]

theorem poleDetailPost_invalidform_eq (stages : List StageDefinition) (st : PoleState)
    (sid : Nat) (target : StageDefinition) (latRaw lonRaw : Option String)
    (exifGps : Option (String × String)) (hasFile : Bool) (newEvId : Nat)
    (hfind : stages.find? (fun s => s.id == sid) = some target)
    (hmiss : (missingStageNames stages target (st.evidence.map fun e => e.stage.id)).isEmpty
      = true) :
    poleDetailPost stages st (.given sid) latRaw lonRaw exifGps hasFile false newEvId =
      ({ evidence := st.evidence.filter (fun e => !(e.stage.id == target.id)),
         is_completed := st.is_completed }, .uploadFailed) := by
  simp [poleDetailPost, hfind, hmiss]

theorem perStageUnique_filter (ev : List EvidenceRecord) (huniq : perStageUnique ev)
    (p : EvidenceRecord → Bool) : perStageUnique (ev.filter p) :=
  huniq.sublist ((List.filter_sublist ev).map (fun e => e.stage.id))

theorem perStageUnique_replace (ev : List EvidenceRecord) (huniq : perStageUnique ev)
    (target : StageDefinition) (r : EvidenceRecord) (hr : r.stage.id = target.id) :
    perStageUnique ((ev.filter (fun e => !(e.stage.id == target.id))) ++ [r]) := by
  unfold perStageUnique
  rw [List.map_append]
  refine List.Nodup.append (perStageUnique_filter ev huniq _) (by simp) ?_
  intro x hx hx2
  simp at hx2
  rw [List.mem_map] at hx
  obtain ⟨e, he, hex⟩ := hx
  rw [List.mem_filter] at he
  have : e.stage.id ≠ target.id := by simpa using he.2
  rw [hx2, hr] at hex
  exact this hex

theorem evidenceStagesFrom_filter (stages : List StageDefinition) (ev : List EvidenceRecord)
    (hfrom : evidenceStagesFrom stages ev) (p : EvidenceRecord → Bool) :
    evidenceStagesFrom stages (ev.filter p) :=
  fun e he => hfrom e ((List.filter_sublist ev).subset he)

/-- C3: after a successful evidence upload and after an evidence deletion,
the pole's persisted `is_completed` flag (recomputed synchronously inside
the same request, as part of the returned state) holds exactly when every
`is_required` stage of the project type carries exactly one evidence record
on the pole — vacuously true when there is no required stage.  Hypotheses:
stage primary keys are unique, existing evidence points at stages of the
pole's project type, and evidence is per-stage unique (the invariant of
claim C7). -/
theorem completion_flag_spec (stages : List StageDefinition) (st : PoleState)
    (hids : (stages.map (fun s => s.id)).Nodup)
    (hfrom : evidenceStagesFrom stages st.evidence)
    (huniq : perStageUnique st.evidence) :
    (∀ input latRaw lonRaw exifGps hasFile formValid newEvId st2,
        poleDetailPost stages st input latRaw lonRaw exifGps hasFile formValid newEvId
          = (st2, .uploadSuccess) →
        (st2.is_completed = true ↔ requiredExactlyOne stages st2.evidence))
    ∧ (∀ evId, st.evidence.any (fun e => e.id == evId) = true →
        ((deleteEvidence stages st evId).is_completed = true ↔
          requiredExactlyOne stages (deleteEvidence stages st evId).evidence)) := by
  constructor
  · intro input latRaw lonRaw exifGps hasFile formValid newEvId st2 heq
    cases input with
    | malformed => simp [poleDetailPost] at heq
    | absent => cases formValid <;> simp [poleDetailPost] at heq
    | given sid =>
        cases hfind : stages.find? (fun s => s.id == sid) with
        | none => simp [poleDetailPost, hfind] at heq
        | some target =>
            cases hmiss : (missingStageNames stages target
                (st.evidence.map fun e => e.stage.id)).isEmpty with
            | false => simp [poleDetailPost, hfind, hmiss] at heq
            | true =>
                cases formValid with
                | false =>
                    rw [poleDetailPost_invalidform_eq stages st sid target latRaw lonRaw
                      exifGps hasFile newEvId hfind hmiss] at heq
                    simp at heq
                | true =>
                    rw [poleDetailPost_success_eq stages st sid target latRaw lonRaw
                      exifGps hasFile newEvId hfind hmiss] at heq
                    have hst2 := (Prod.mk.injEq _ _ _ _).mp heq
                    rw [← hst2.1]
                    apply recomputeCompleted_iff stages _ hids
                    · intro e he
                      rw [List.mem_append] at he
                      cases he with
                      | inl h1 => exact hfrom e ((List.filter_sublist st.evidence).subset h1)
                      | inr h2 =>
                          simp at h2
                          rw [h2]
                          exact List.mem_of_find?_eq_some hfind
                    · exact perStageUnique_replace st.evidence huniq target _ rfl
  · intro evId hany
    unfold deleteEvidence
    rw [if_pos hany]
    exact recomputeCompleted_iff stages _ hids
      (evidenceStagesFrom_filter stages st.evidence hfrom _)
      (perStageUnique_filter st.evidence huniq _)

/-- Witness for C3 at a one-required-stage project type: uploading evidence
for the stage completes the pole, and the exactly-one property holds of the
resulting evidence. -/
theorem completion_flag_spec_witness :
    (poleDetailPost [⟨1, "A", 0, true⟩] ⟨[], false⟩ (.given 1) none none none false true 5
        = (⟨[⟨5, ⟨1, "A", 0, true⟩, none, none⟩], true⟩, .uploadSuccess))
    ∧ ((true : Bool) = true ↔
        requiredExactlyOne [⟨1, "A", 0, true⟩] [⟨5, ⟨1, "A", 0, true⟩, none, none⟩]) := by
  refine ⟨by decide, ?_⟩
  exact (completion_flag_spec [⟨1, "A", 0, true⟩] ⟨[], false⟩ (by decide) (by decide)
    (by decide)).1 (.given 1) none none none false true 5
    ⟨[⟨5, ⟨1, "A", 0, true⟩, none, none⟩], true⟩ (by decide)

/-- C7: per-(pole, stage) uniqueness of evidence is preserved by every
upload outcome and by deletion, and a successful upload for a stage that
already had a record replaces it: afterwards exactly one record exists for
the targeted stage and it is the newly inserted row (delete-then-insert). -/
theorem evidence_replacement_invariant (stages : List StageDefinition) (st : PoleState)
    (huniq : perStageUnique st.evidence) :
    (∀ input latRaw lonRaw exifGps hasFile formValid newEvId,
        perStageUnique (poleDetailPost stages st input latRaw lonRaw exifGps hasFile
          formValid newEvId).1.evidence)
    ∧ (∀ evId, perStageUnique (deleteEvidence stages st evId).evidence)
    ∧ (∀ sid target latRaw lonRaw exifGps hasFile newEvId,
        stages.find? (fun s => s.id == sid) = some target →
        (missingStageNames stages target (st.evidence.map fun e => e.stage.id)).isEmpty = true →
        ((poleDetailPost stages st (.given sid) latRaw lonRaw exifGps hasFile true
            newEvId).1.evidence.countP (fun e => e.stage.id == target.id) = 1
          ∧ ∀ e ∈ (poleDetailPost stages st (.given sid) latRaw lonRaw exifGps hasFile true
              newEvId).1.evidence, e.stage.id = target.id → e.id = newEvId)) := by
  refine ⟨?_, ?_, ?_⟩
  · intro input latRaw lonRaw exifGps hasFile formValid newEvId
    cases input with
    | malformed => simpa [poleDetailPost] using huniq
    | absent => cases formValid <;> simpa [poleDetailPost] using huniq
    | given sid =>
        cases hfind : stages.find? (fun s => s.id == sid) with
        | none => simpa [poleDetailPost, hfind] using huniq
        | some target =>
            cases hmiss : (missingStageNames stages target
                (st.evidence.map fun e => e.stage.id)).isEmpty with
            | false => simpa [poleDetailPost, hfind, hmiss] using huniq
            | true =>
                cases formValid with
                | false =>
                    rw [poleDetailPost_invalidform_eq stages st sid target latRaw lonRaw
                      exifGps hasFile newEvId hfind hmiss]
                    exact perStageUnique_filter st.evidence huniq _
                | true =>
                    rw [poleDetailPost_success_eq stages st sid target latRaw lonRaw
                      exifGps hasFile newEvId hfind hmiss]
                    exact perStageUnique_replace st.evidence huniq target _ rfl
  · intro evId
    unfold deleteEvidence
    by_cases hany : st.evidence.any (fun e => e.id == evId) = true
    · rw [if_pos hany]
      exact perStageUnique_filter st.evidence huniq _
    · rw [if_neg hany]
      exact huniq
  · intro sid target latRaw lonRaw exifGps hasFile newEvId hfind hmiss
    rw [poleDetailPost_success_eq stages st sid target latRaw lonRaw
      exifGps hasFile newEvId hfind hmiss]
    constructor
    · rw [List.countP_append]
      have h0 : (st.evidence.filter (fun e => !(e.stage.id == target.id))).countP
          (fun e => e.stage.id == target.id) = 0 := by
        rw [List.countP_eq_zero]
        intro e he
        rw [List.mem_filter] at he
        simpa using he.2
      rw [h0]
      simp
    · intro e he heq
      rw [List.mem_append] at he
      cases he with
      | inl h1 =>
          rw [List.mem_filter] at h1
          exfalso
          have : e.stage.id ≠ target.id := by simpa using h1.2
          exact this heq
      | inr h2 =>
          simp at h2
          rw [h2]

/-- Witness for C7: re-uploading evidence for a stage that already has a
record leaves exactly one record for that stage, the new row. -/
theorem evidence_replacement_invariant_witness :
    perStageUnique [⟨10, ⟨1, "A", 0, true⟩, none, none⟩]
    ∧ ([⟨1, "A", 0, true⟩] : List StageDefinition).find? (fun s => s.id == 1)
        = some ⟨1, "A", 0, true⟩
    ∧ ((poleDetailPost [⟨1, "A", 0, true⟩] ⟨[⟨10, ⟨1, "A", 0, true⟩, none, none⟩], true⟩
        (.given 1) none none none false true 11).1.evidence.countP
          (fun e => e.stage.id == (1 : Nat)) = 1) := by
  refine ⟨by decide, by decide, ?_⟩
  exact ((evidence_replacement_invariant [⟨1, "A", 0, true⟩]
    ⟨[⟨10, ⟨1, "A", 0, true⟩, none, none⟩], true⟩ (by decide)).2.2 1 ⟨1, "A", 0, true⟩
    none none none false 11 (by decide) (by decide)).1

/-! ## Failed-upload behaviour (claim C4) -/

/-- C4 counterexample: a concrete evidence-upload request that fails form
validation (outcome `uploadFailed`, the user-visible "Upload failed."
message) nevertheless changes persisted state: the pole had one evidence
record for the targeted stage before the request and none after it, because
the view deletes the prior record before validating the form. -/
theorem failed_upload_counterexample :
    ((poleDetailPost [⟨1, "Excavation", 0, true⟩]
        ⟨[⟨10, ⟨1, "Excavation", 0, true⟩, none, none⟩], true⟩
        (.given 1) none none none false false 99).2 = .uploadFailed)
    ∧ (([⟨10, ⟨1, "Excavation", 0, true⟩, none, none⟩] :
          List EvidenceRecord).countP (fun e => e.stage.id == (1 : Nat)) = 1)
    ∧ ((poleDetailPost [⟨1, "Excavation", 0, true⟩]
        ⟨[⟨10, ⟨1, "Excavation", 0, true⟩, none, none⟩], true⟩
        (.given 1) none none none false false 99).1.evidence.countP
          (fun e => e.stage.id == (1 : Nat)) = 0) := by
  refine ⟨by decide, by decide, by decide⟩

/-- C4 (amended): every evidence-upload request that fails validation is
rejected with a user-visible message, no new evidence record is persisted,
and the pole's persisted `is_completed` flag is unchanged by the failed
request.  A malformed stage id is rejected before any persistence with no
state change at all.  Oversized coordinate strings surface as form
validation failures: `EvidenceForm` re-validates the raw POSTed
coordinates against the gps `DecimalField(max_digits=9, decimal_places=6)`
declaration, so for instance any plain digit string with more than three
significant integer digits makes `is_valid()` false and the upload is
rejected.  However — this is what the counterexample forces — an
invalid-form request that passed the sequence gate is not free of partial
state: a previously existing evidence record for the targeted stage has
already been deleted before validation. -/
theorem failed_upload_amended (stages : List StageDefinition) (st : PoleState) :
    (∀ latRaw lonRaw exifGps hasFile formValid newEvId,
        poleDetailPost stages st .malformed latRaw lonRaw exifGps hasFile formValid newEvId
          = (st, .invalidStageId))
    ∧ (∀ sid target latRaw lonRaw exifGps hasFile newEvId,
        stages.find? (fun s => s.id == sid) = some target →
        (missingStageNames stages target (st.evidence.map fun e => e.stage.id)).isEmpty = true →
        (poleDetailPost stages st (.given sid) latRaw lonRaw exifGps hasFile false
            newEvId).2 = .uploadFailed
          ∧ (poleDetailPost stages st (.given sid) latRaw lonRaw exifGps hasFile false
              newEvId).1.is_completed = st.is_completed
          ∧ (∀ e ∈ (poleDetailPost stages st (.given sid) latRaw lonRaw exifGps hasFile false
              newEvId).1.evidence, e ∈ st.evidence)
          ∧ (∀ e ∈ (poleDetailPost stages st (.given sid) latRaw lonRaw exifGps hasFile false
              newEvId).1.evidence, e.stage.id ≠ target.id)
          ∧ (∀ e ∈ st.evidence, e.stage.id ≠ target.id →
              e ∈ (poleDetailPost stages st (.given sid) latRaw lonRaw exifGps hasFile false
                newEvId).1.evidence))
    ∧ (∀ restValid latRaw lonRaw,
        (gpsFieldRejects latRaw = true ∨ gpsFieldRejects lonRaw = true) →
        evidenceFormValid restValid latRaw lonRaw = false)
    ∧ (∀ sid target restValid latRaw lonRaw exifGps hasFile newEvId,
        stages.find? (fun s => s.id == sid) = some target →
        (missingStageNames stages target (st.evidence.map fun e => e.stage.id)).isEmpty = true →
        (gpsFieldRejects latRaw = true ∨ gpsFieldRejects lonRaw = true) →
        (poleDetailPost stages st (.given sid) latRaw lonRaw exifGps hasFile
            (evidenceFormValid restValid latRaw lonRaw) newEvId).2 = .uploadFailed
          ∧ (poleDetailPost stages st (.given sid) latRaw lonRaw exifGps hasFile
              (evidenceFormValid restValid latRaw lonRaw) newEvId).1.is_completed
            = st.is_completed
          ∧ (∀ e ∈ (poleDetailPost stages st (.given sid) latRaw lonRaw exifGps hasFile
              (evidenceFormValid restValid latRaw lonRaw) newEvId).1.evidence,
              e ∈ st.evidence)) := by
  have hinvalid : ∀ sid target latRaw lonRaw exifGps hasFile newEvId,
      stages.find? (fun s => s.id == sid) = some target →
      (missingStageNames stages target (st.evidence.map fun e => e.stage.id)).isEmpty = true →
      (poleDetailPost stages st (.given sid) latRaw lonRaw exifGps hasFile false
          newEvId).2 = .uploadFailed
        ∧ (poleDetailPost stages st (.given sid) latRaw lonRaw exifGps hasFile false
            newEvId).1.is_completed = st.is_completed
        ∧ (∀ e ∈ (poleDetailPost stages st (.given sid) latRaw lonRaw exifGps hasFile false
            newEvId).1.evidence, e ∈ st.evidence)
        ∧ (∀ e ∈ (poleDetailPost stages st (.given sid) latRaw lonRaw exifGps hasFile false
            newEvId).1.evidence, e.stage.id ≠ target.id)
        ∧ (∀ e ∈ st.evidence, e.stage.id ≠ target.id →
            e ∈ (poleDetailPost stages st (.given sid) latRaw lonRaw exifGps hasFile false
              newEvId).1.evidence) := by
    intro sid target latRaw lonRaw exifGps hasFile newEvId hfind hmiss
    rw [poleDetailPost_invalidform_eq stages st sid target latRaw lonRaw
      exifGps hasFile newEvId hfind hmiss]
    refine ⟨rfl, rfl, ?_, ?_, ?_⟩
    · intro e he
      exact (List.filter_sublist st.evidence).subset he
    · intro e he
      rw [List.mem_filter] at he
      simpa using he.2
    · intro e he hne
      rw [List.mem_filter]
      exact ⟨he, by simpa using hne⟩
  have hformfalse : ∀ (restValid : Bool) latRaw lonRaw,
      (gpsFieldRejects latRaw = true ∨ gpsFieldRejects lonRaw = true) →
      evidenceFormValid restValid latRaw lonRaw = false := by
    intro restValid latRaw lonRaw hrej
    unfold evidenceFormValid
    cases hrej with
    | inl h => rw [h]; simp
    | inr h => rw [h]; simp
  refine ⟨?_, hinvalid, hformfalse, ?_⟩
  · intro latRaw lonRaw exifGps hasFile formValid newEvId
    rfl
  · intro sid target restValid latRaw lonRaw exifGps hasFile newEvId hfind hmiss hrej
    rw [hformfalse restValid latRaw lonRaw hrej]
    obtain ⟨h1, h2, h3, _, _⟩ := hinvalid sid target latRaw lonRaw exifGps hasFile newEvId
      hfind hmiss
    exact ⟨h1, h2, h3⟩

/-- Witness for the amended C4: the oversized 23-digit coordinate strings
fail the gps field validation, so the form is invalid and the request —
which passed the sequence gate on a pole holding one record for the
targeted stage — is rejected as "Upload failed." with the flag unchanged,
while the prior record is already gone (the counterexample's partial
state). -/
theorem failed_upload_amended_witness :
    gpsFieldRejects (some "12345678901234567890123") = true
    ∧ evidenceFormValid true (some "12345678901234567890123")
        (some "98765432109876543210987") = false
    ∧ ((poleDetailPost [⟨1, "Excavation", 0, true⟩]
        ⟨[⟨10, ⟨1, "Excavation", 0, true⟩, none, none⟩], true⟩
        (.given 1) (some "12345678901234567890123") (some "98765432109876543210987")
        none false
        (evidenceFormValid true (some "12345678901234567890123")
          (some "98765432109876543210987")) 99).2 = .uploadFailed)
    ∧ ((poleDetailPost [⟨1, "Excavation", 0, true⟩]
        ⟨[⟨10, ⟨1, "Excavation", 0, true⟩, none, none⟩], true⟩
        (.given 1) (some "12345678901234567890123") (some "98765432109876543210987")
        none false
        (evidenceFormValid true (some "12345678901234567890123")
          (some "98765432109876543210987")) 99).1.is_completed = true) := by
  refine ⟨by decide, ?_, ?_, ?_⟩
  · exact (failed_upload_amended [⟨1, "Excavation", 0, true⟩]
      ⟨[⟨10, ⟨1, "Excavation", 0, true⟩, none, none⟩], true⟩).2.2.1 true
      (some "12345678901234567890123") (some "98765432109876543210987")
      (Or.inl (by decide))
  · exact ((failed_upload_amended [⟨1, "Excavation", 0, true⟩]
      ⟨[⟨10, ⟨1, "Excavation", 0, true⟩, none, none⟩], true⟩).2.2.2 1
      ⟨1, "Excavation", 0, true⟩ true
      (some "12345678901234567890123") (some "98765432109876543210987")
      none false 99 (by decide) (by decide) (Or.inl (by decide))).1
  · exact ((failed_upload_amended [⟨1, "Excavation", 0, true⟩]
      ⟨[⟨10, ⟨1, "Excavation", 0, true⟩, none, none⟩], true⟩).2.2.2 1
      ⟨1, "Excavation", 0, true⟩ true
      (some "12345678901234567890123") (some "98765432109876543210987")
      none false 99 (by decide) (by decide) (Or.inl (by decide))).2.1


/-! ## Identifier-allocation lemmas (claims C5, C6) -/

theorem contains_eq_mem {α : Type} [BEq α] [LawfulBEq α] (l : List α) (a : α) :
    l.contains a = true ↔ a ∈ l := by
  simp [List.contains_iff_exists_mem_beq]

/-- C5: the candidate identifier for a new item with non-empty grouping
value `v` is `"{ProjectName}_{v} #{N}"` where `N` counts the project's
items whose grouping value equals `v` inclusive of the new item itself
(the prior count plus one); with no grouping field, or an empty captured
value, it falls back to `"{unit_name} #{T}"` with `T` the project's total
item count including the new item. -/
theorem candidate_identifier_spec (st : ProjectState) (newPoleId : Nat) (temp : String) :
    (∀ v : String, v ≠ "" →
      candidateIdentifier st.name st.unit_name (st.poles ++ [⟨newPoleId, temp, some v⟩]) (some v)
        = st.name ++ "_" ++ v ++ " #" ++
            natToStr (st.poles.countP (fun p => p.groupValue == some v) + 1))
    ∧ (candidateIdentifier st.name st.unit_name (st.poles ++ [⟨newPoleId, temp, none⟩]) none
        = st.unit_name ++ " #" ++ natToStr (st.poles.length + 1))
    ∧ (candidateIdentifier st.name st.unit_name (st.poles ++ [⟨newPoleId, temp, some ""⟩])
          (some "")
        = st.unit_name ++ " #" ++ natToStr (st.poles.length + 1)) := by
  refine ⟨?_, ?_, ?_⟩
  · intro v hv
    have hbeq : (v == "") = false := by simpa using hv
    simp only [candidateIdentifier]
    rw [hbeq]
    simp only [Bool.false_eq_true, if_false, List.countP_append]
    have hone : ([(⟨newPoleId, temp, some v⟩ : PoleRec)].countP
        (fun p => p.groupValue == some v)) = 1 := by simp
    rw [hone]
  · simp [candidateIdentifier, List.length_append]
  · simp [candidateIdentifier, List.length_append]

/-- Witness for C5: the third item with Village "Bari" in project "Agra"
gets candidate identifier "Agra_Bari #3". -/
theorem candidate_identifier_spec_witness :
    ("Bari" : String) ≠ ""
    ∧ candidateIdentifier "Agra" "Pole"
        ([⟨1, "Agra_Bari #1", some "Bari"⟩, ⟨2, "Agra_Bari #2", some "Bari"⟩] ++
          [⟨3, "TEMP-3", some "Bari"⟩]) (some "Bari")
      = "Agra" ++ "_" ++ "Bari" ++ " #" ++
          natToStr (([⟨1, "Agra_Bari #1", some "Bari"⟩,
            ⟨2, "Agra_Bari #2", some "Bari"⟩] : List PoleRec).countP
              (fun p => p.groupValue == some "Bari") + 1) := by
  refine ⟨by decide, ?_⟩
  exact (candidate_identifier_spec ⟨"Agra", "Pole",
    [⟨1, "Agra_Bari #1", some "Bari"⟩, ⟨2, "Agra_Bari #2", some "Bari"⟩]⟩ 3 "TEMP-3").1
    "Bari" (by decide)

theorem string_data_inj {a b : String} (h : a.data = b.data) : a = b := by
  cases a
  cases b
  exact congrArg String.mk h

theorem natToStr_length_pos (n : Nat) : 0 < (natToStr n).length := by
  by_cases hn : n = 0
  · rw [hn]
    decide
  · rw [natToStr_length_eq hn]
    omega

theorem identifierCandidate_injective (base : String) :
    Function.Injective (identifierCandidate base) := by
  intro k j h
  unfold identifierCandidate at h
  by_cases hk : k = 0 <;> by_cases hj : j = 0
  · rw [hk, hj]
  · rw [if_pos hk, if_neg hj] at h
    have hlen := congrArg String.length h
    rw [String.length_append, String.length_append] at hlen
    have := natToStr_length_pos j
    omega
  · rw [if_neg hk, if_pos hj] at h
    have hlen := congrArg String.length h
    rw [String.length_append, String.length_append] at hlen
    have := natToStr_length_pos k
    omega
  · rw [if_neg hk, if_neg hj] at h
    have hdata := congrArg String.data h
    rw [String.data_append, String.data_append, String.data_append, String.data_append] at hdata
    rw [List.append_assoc, List.append_assoc] at hdata
    have h2 := List.append_cancel_left hdata
    have h3 := List.append_cancel_left h2
    exact natToStr_injective (string_data_inj h3)

theorem firstFreeStep_succ (existing : List String) (base : String) (k fuel : Nat) :
    firstFreeStep existing base k (fuel + 1) =
      if existing.contains (identifierCandidate base k) then
        firstFreeStep existing base (k + 1) fuel
      else some k := rfl

theorem firstFreeStep_some_spec (existing : List String) (base : String) :
    ∀ fuel start k, firstFreeStep existing base start fuel = some k →
      existing.contains (identifierCandidate base k) = false
      ∧ start ≤ k ∧ k < start + fuel
      ∧ ∀ j, start ≤ j → j < k → existing.contains (identifierCandidate base j) = true := by
  intro fuel
  induction fuel with
  | zero =>
      intro start k h
      simp [firstFreeStep] at h
  | succ fuel ih =>
      intro start k h
      cases hc : existing.contains (identifierCandidate base start) with
      | true =>
          rw [firstFreeStep_succ, if_pos hc] at h
          obtain ⟨h1, h2, h3, h4⟩ := ih (start + 1) k h
          refine ⟨h1, by omega, by omega, ?_⟩
          intro j hj1 hj2
          by_cases hjs : j = start
          · rw [hjs]
            exact hc
          · exact h4 j (by omega) hj2
      | false =>
          rw [firstFreeStep_succ, if_neg (by rw [hc]; simp)] at h
          have hsk : start = k := by injection h
          rw [← hsk]
          refine ⟨hc, le_rfl, by omega, ?_⟩
          intro j hj1 hj2
          omega
  
theorem firstFreeStep_none_all (existing : List String) (base : String) :
    ∀ fuel start, firstFreeStep existing base start fuel = none →
      ∀ j, start ≤ j → j < start + fuel → existing.contains (identifierCandidate base j) = true := by
  intro fuel
  induction fuel with
  | zero =>
      intro start h j hj1 hj2
      omega
  | succ fuel ih =>
      intro start h j hj1 hj2
      cases hc : existing.contains (identifierCandidate base start) with
      | true =>
          rw [firstFreeStep_succ, if_pos hc] at h
          by_cases hjs : j = start
          · rw [hjs]
            exact hc
          · exact ih (start + 1) h j (by omega) (by omega)
      | false =>
          rw [firstFreeStep_succ, if_neg (by rw [hc]; simp)] at h
          exact absurd h (by simp)

theorem uniquify_spec (existing : List String) (base : String) :
    uniquify existing base ∉ existing
    ∧ ∃ k, uniquify existing base = identifierCandidate base k
        ∧ ∀ j < k, identifierCandidate base j ∈ existing := by
  cases h : firstFreeStep existing base 0 (existing.length + 2) with
  | some k =>
      obtain ⟨h1, _, _, h4⟩ := firstFreeStep_some_spec existing base _ 0 k h
      unfold uniquify
      rw [h]
      constructor
      · intro hmem
        rw [← contains_eq_mem existing (identifierCandidate base k)] at hmem
        rw [h1] at hmem
        exact absurd hmem (by simp)
      · exact ⟨k, rfl, fun j hj =>
          (contains_eq_mem existing _).mp (h4 j (Nat.zero_le j) hj)⟩
  | none =>
      exfalso
      have hall := firstFreeStep_none_all existing base _ 0 h
      have hsub : (Finset.range (existing.length + 2)).image (identifierCandidate base)
          ⊆ existing.toFinset := by
        intro x hx
        rw [Finset.mem_image] at hx
        obtain ⟨k, hk, hkx⟩ := hx
        rw [Finset.mem_range] at hk
        rw [List.mem_toFinset, ← hkx]
        exact (contains_eq_mem existing _).mp (hall k (Nat.zero_le k) (by omega))
      have hcard : ((Finset.range (existing.length + 2)).image (identifierCandidate base)).card
          = existing.length + 2 := by
        rw [Finset.card_image_of_injective _ (identifierCandidate_injective base),
          Finset.card_range]
      have hle := Finset.card_le_card hsub
      rw [hcard] at hle
      have := existing.toFinset_card_le
      omega

/-- C6: after the uniqueness pass, the new item's identifier differs from
every other item's identifier in the project: the final name is the first
candidate in the sequence base, base-1, base-2, … not already taken (so a
clash appends "-c" with c counting up from 1), and identifiers stay
pairwise distinct within the project after the creation. -/
theorem item_identifier_uniqueness (st : ProjectState) (gv : Option String) (newPoleId : Nat)
    (hid : ∀ p ∈ st.poles, p.id ≠ newPoleId)
    (hnd : (st.poles.map (fun p => p.identifier)).Nodup) :
    ∃ newP : PoleRec,
      (createItem st gv newPoleId).poles = st.poles ++ [newP]
      ∧ newP.id = newPoleId
      ∧ newP.identifier ∉ st.poles.map (fun p => p.identifier)
      ∧ ((createItem st gv newPoleId).poles.map (fun p => p.identifier)).Nodup
      ∧ ∃ k, newP.identifier = identifierCandidate (candidateIdentifier st.name st.unit_name
            (st.poles ++ [⟨newPoleId, "TEMP-" ++ natToStr (st.poles.length + 1), gv⟩]) gv) k
          ∧ ∀ j < k, identifierCandidate (candidateIdentifier st.name st.unit_name
              (st.poles ++ [⟨newPoleId, "TEMP-" ++ natToStr (st.poles.length + 1), gv⟩]) gv) j
            ∈ st.poles.map (fun p => p.identifier) := by
  have hexist : ((st.poles ++ [(⟨newPoleId, "TEMP-" ++ natToStr (st.poles.length + 1), gv⟩ :
        PoleRec)]).filter (fun p => !(p.id == newPoleId))).map (fun p => p.identifier)
      = st.poles.map (fun p => p.identifier) := by
    rw [List.filter_append]
    have h1 : st.poles.filter (fun p => !(p.id == newPoleId)) = st.poles := by
      rw [List.filter_eq_self]
      intro p hp
      simpa using hid p hp
    have h2 : ([(⟨newPoleId, "TEMP-" ++ natToStr (st.poles.length + 1), gv⟩ :
        PoleRec)].filter (fun p => !(p.id == newPoleId))) = [] := by
      simp
    rw [h1, h2, List.append_nil]
  have hcreate : (createItem st gv newPoleId).poles
      = st.poles ++ [⟨newPoleId,
          uniquify (st.poles.map (fun p => p.identifier))
            (candidateIdentifier st.name st.unit_name
              (st.poles ++ [⟨newPoleId, "TEMP-" ++ natToStr (st.poles.length + 1), gv⟩]) gv),
          gv⟩] := by
    simp only [createItem]
    rw [hexist]
  obtain ⟨hnotmem, k, hk, hklt⟩ := uniquify_spec (st.poles.map (fun p => p.identifier))
    (candidateIdentifier st.name st.unit_name
      (st.poles ++ [⟨newPoleId, "TEMP-" ++ natToStr (st.poles.length + 1), gv⟩]) gv)
  refine ⟨_, hcreate, rfl, hnotmem, ?_, ⟨k, hk, hklt⟩⟩
  rw [hcreate, List.map_append]
  refine List.Nodup.append hnd (by simp) ?_
  intro x hx hx2
  simp at hx2
  rw [hx2] at hx
  exact hnotmem hx

/-- Witness for C6: creating an item in a project that already contains an
item named "Pole #2" (the colliding candidate) still yields pairwise
distinct identifiers. -/
theorem item_identifier_uniqueness_witness :
    (∀ p ∈ ([⟨1, "Pole #2", none⟩] : List PoleRec), p.id ≠ 2)
    ∧ (([⟨1, "Pole #2", none⟩] : List PoleRec).map (fun p => p.identifier)).Nodup
    ∧ ∃ newP : PoleRec,
        (createItem ⟨"Agra", "Pole", [⟨1, "Pole #2", none⟩]⟩ none 2).poles
          = [⟨1, "Pole #2", none⟩] ++ [newP]
        ∧ newP.identifier ∉ ([⟨1, "Pole #2", none⟩] : List PoleRec).map
            (fun p => p.identifier) := by
  refine ⟨by decide, by decide, ?_⟩
  obtain ⟨newP, h1, _, h3, _, _⟩ := item_identifier_uniqueness
    ⟨"Agra", "Pole", [⟨1, "Pole #2", none⟩]⟩ none 2 (by decide) (by decide)
  exact ⟨newP, h1, h3⟩

/-! ## AccessPolicy (claim C8) -/

/-- C8: the project-access check allows access exactly for superusers,
staff, and users appearing in the project's assigned-contractor set; any
other user gets a `PermissionDenied`-style denial — a distinct outcome from
"not found" — whose security-log line contains the user's id and the
project's id. -/
theorem project_access_policy (u : UserRec) (projectId : Nat) (contractorIds : List Nat) :
    (check_project_access u projectId contractorIds = .allowed ↔
      (u.is_superuser = true ∨ u.is_staff = true ∨ u.id ∈ contractorIds))
    ∧ (¬(u.is_superuser = true ∨ u.is_staff = true ∨ u.id ∈ contractorIds) →
        check_project_access u projectId contractorIds
            = .denied (securityAlertLine u projectId)
          ∧ check_project_access u projectId contractorIds ≠ .notFound
          ∧ containsSubstr (securityAlertLine u projectId) (natToStr u.id)
          ∧ containsSubstr (securityAlertLine u projectId) (natToStr projectId)) := by
  constructor
  · unfold check_project_access
    by_cases h1 : (u.is_superuser || u.is_staff) = true
    · rw [if_pos h1]
      simp at h1
      simp [h1]
      rcases h1 with h | h
      · exact Or.inl h
      · exact Or.inr (Or.inl h)
    · rw [if_neg h1]
      simp at h1
      by_cases h2 : contractorIds.contains u.id = true
      · rw [if_pos h2]
        rw [contains_eq_mem] at h2
        simp [h1, h2]
      · rw [if_neg h2]
        rw [contains_eq_mem] at h2
        simp [h1, h2]
  · intro hden
    push_neg at hden
    obtain ⟨hsu, hst, hmem⟩ := hden
    have h1 : (u.is_superuser || u.is_staff) = false := by
      simp [hsu, hst]
    have h2 : contractorIds.contains u.id = false := by
      cases hcv : contractorIds.contains u.id with
      | false => rfl
      | true => exact absurd ((contains_eq_mem _ _).mp hcv) hmem
    have hres : check_project_access u projectId contractorIds
        = .denied (securityAlertLine u projectId) := by
      unfold check_project_access
      rw [if_neg (by simp [h1]), if_neg (by simpa using hmem)]
    refine ⟨hres, by rw [hres]; intro hcon; exact AccessResult.noConfusion hcon, ?_, ?_⟩
    · exact ⟨"SECURITY ALERT: User " ++ u.username ++ " (ID: ",
        ") tried to access Project " ++ natToStr projectId ++ " without permission.", by
          unfold securityAlertLine
          simp [String.append_assoc]⟩
    · exact ⟨"SECURITY ALERT: User " ++ u.username ++ " (ID: " ++ natToStr u.id ++
          ") tried to access Project ", " without permission.", by
          unfold securityAlertLine
          simp [String.append_assoc]⟩

/-- Witness for C8: a contractor not assigned to the project is denied, and
the logged line carries the ids. -/
theorem project_access_policy_witness :
    ¬((⟨5, "bob", false, false⟩ : UserRec).is_superuser = true
        ∨ (⟨5, "bob", false, false⟩ : UserRec).is_staff = true ∨ (5 : Nat) ∈ [(4 : Nat)])
    ∧ check_project_access ⟨5, "bob", false, false⟩ 9 [4]
        = .denied (securityAlertLine ⟨5, "bob", false, false⟩ 9)
    ∧ containsSubstr (securityAlertLine ⟨5, "bob", false, false⟩ 9) (natToStr 5) := by
  refine ⟨by decide, ?_, ?_⟩
  · exact ((project_access_policy ⟨5, "bob", false, false⟩ 9 [4]).2 (by decide)).1
  · exact ((project_access_policy ⟨5, "bob", false, false⟩ 9 [4]).2 (by decide)).2.2.1

/-! ## CSV export lemmas (claim C9) -/

theorem digitsOnly_append {a b : String} (ha : digitsOnly a) (hb : digitsOnly b) :
    digitsOnly (a ++ b) := by
  intro c hc
  rw [String.data_append] at hc
  rw [List.mem_append] at hc
  cases hc with
  | inl h => exact ha c h
  | inr h => exact hb c h

theorem digitsOnly_natToStr (n : Nat) : digitsOnly (natToStr n) :=
  natToStr_digitsOnly n

theorem natToStr_length_two {n : Nat} (h1 : 10 ≤ n) (h2 : n < 100) :
    (natToStr n).length = 2 := by
  rw [natToStr_length_eq (by omega)]
  have hlog : Nat.log 10 n = 1 :=
    Nat.log_eq_of_pow_le_of_lt_pow (by simpa using h1) (by simpa using h2)
  rw [hlog]

theorem natToStr_length_three {n : Nat} (h1 : 100 ≤ n) (h2 : n < 1000) :
    (natToStr n).length = 3 := by
  rw [natToStr_length_eq (by omega)]
  have hlog : Nat.log 10 n = 2 :=
    Nat.log_eq_of_pow_le_of_lt_pow (by simpa using h1) (by simpa using h2)
  rw [hlog]

theorem natToStr_length_four {n : Nat} (h1 : 1000 ≤ n) (h2 : n < 10000) :
    (natToStr n).length = 4 := by
  rw [natToStr_length_eq (by omega)]
  have hlog : Nat.log 10 n = 3 :=
    Nat.log_eq_of_pow_le_of_lt_pow (by simpa using h1) (by simpa using h2)
  rw [hlog]

theorem pad2_spec {n : Nat} (h : n < 100) : (pad2 n).length = 2 ∧ digitsOnly (pad2 n) := by
  unfold pad2
  by_cases h10 : n < 10
  · rw [if_pos h10]
    constructor
    · rw [String.length_append, natToStr_length_of_lt_ten h10]
      decide
    · exact digitsOnly_append (by intro c hc; simp at hc; subst hc; decide)
        (digitsOnly_natToStr n)
  · rw [if_neg h10]
    exact ⟨natToStr_length_two (by omega) h, digitsOnly_natToStr n⟩

theorem pad4_spec {n : Nat} (h : n < 10000) : (pad4 n).length = 4 ∧ digitsOnly (pad4 n) := by
  unfold pad4
  by_cases h10 : n < 10
  · rw [if_pos h10]
    constructor
    · rw [String.length_append, natToStr_length_of_lt_ten h10]
      decide
    · exact digitsOnly_append (by intro c hc; simp at hc; subst hc; decide)
        (digitsOnly_natToStr n)
  · rw [if_neg h10]
    by_cases h100 : n < 100
    · rw [if_pos h100]
      constructor
      · rw [String.length_append, natToStr_length_two (by omega) h100]
        decide
      · exact digitsOnly_append (by intro c hc; simp at hc; subst hc; decide)
          (digitsOnly_natToStr n)
    · rw [if_neg h100]
      by_cases h1000 : n < 1000
      · rw [if_pos h1000]
        constructor
        · rw [String.length_append, natToStr_length_three (by omega) h1000]
          decide
        · exact digitsOnly_append (by intro c hc; simp at hc; subst hc; decide)
            (digitsOnly_natToStr n)
      · rw [if_neg h1000]
        exact ⟨natToStr_length_four (by omega) h, digitsOnly_natToStr n⟩

theorem strftimeTs_shaped (t : Timestamp) (hy : t.year < 10000) (hmo : t.month < 100)
    (hd : t.day < 100) (hh : t.hour < 100) (hmi : t.minute < 100) (hse : t.second < 100) :
    tsShaped (strftimeTs t) := by
  obtain ⟨hy1, hy2⟩ := pad4_spec hy
  obtain ⟨hmo1, hmo2⟩ := pad2_spec hmo
  obtain ⟨hd1, hd2⟩ := pad2_spec hd
  obtain ⟨hh1, hh2⟩ := pad2_spec hh
  obtain ⟨hmi1, hmi2⟩ := pad2_spec hmi
  obtain ⟨hse1, hse2⟩ := pad2_spec hse
  exact ⟨pad4 t.year, pad2 t.month, pad2 t.day, pad2 t.hour, pad2 t.minute, pad2 t.second,
    hy1, hmo1, hd1, hh1, hmi1, hse1, hy2, hmo2, hd2, hh2, hmi2, hse2, rfl⟩

/-- C9: the audit-log CSV export writes exactly the header
`Timestamp,User,Action,Target,Details,Latitude,Longitude` first; every data
row's first cell is the entry's timestamp rendered `YYYY-MM-DD HH:MM:SS`
(4-digit year, 2-digit zero-padded fields, for in-range calendar values);
and the User cell renders the actor's username, or the literal
`System/Client` when the actor is absent. -/
theorem log_export_format (logs : List LogEntry) :
    (exportProjectLogs logs).head? = some csvHeaderRow
    ∧ String.intercalate "," csvHeaderRow
        = "Timestamp,User,Action,Target,Details,Latitude,Longitude"
    ∧ (∀ i, (exportProjectLogs logs)[i + 1]? = (logs[i]?).map logCsvRow)
    ∧ (∀ e ∈ logs, (logCsvRow e)[0]? = some (strftimeTs e.timestamp))
    ∧ (∀ e ∈ logs,
        e.timestamp.year < 10000 → e.timestamp.month < 100 → e.timestamp.day < 100 →
        e.timestamp.hour < 100 → e.timestamp.minute < 100 → e.timestamp.second < 100 →
        tsShaped (strftimeTs e.timestamp))
    ∧ (∀ e ∈ logs, e.user = none → (logCsvRow e)[1]? = some "System/Client")
    ∧ (∀ e ∈ logs, ∀ uname, e.user = some uname → (logCsvRow e)[1]? = some uname) := by
  refine ⟨rfl, by decide, ?_, ?_, ?_, ?_, ?_⟩
  · intro i
    show (csvHeaderRow :: logs.map logCsvRow)[i + 1]? = _
    rw [List.getElem?_cons_succ, List.getElem?_map]
  · intro e he
    rfl
  · intro e he h1 h2 h3 h4 h5 h6
    exact strftimeTs_shaped e.timestamp h1 h2 h3 h4 h5 h6
  · intro e he hu
    simp [logCsvRow, userCell, hu]
  · intro e he uname hu
    simp [logCsvRow, userCell, hu]

/-- Witness for C9: a single anonymous-actor entry renders the
`System/Client` user cell and a well-shaped timestamp. -/
theorem log_export_format_witness :
    ((⟨⟨2026, 3, 7, 9, 5, 30⟩, none, "Client Flagged Issue", "Pole #1", "Issue: leaning",
        none, none⟩ : LogEntry) ∈
      [(⟨⟨2026, 3, 7, 9, 5, 30⟩, none, "Client Flagged Issue", "Pole #1", "Issue: leaning",
        none, none⟩ : LogEntry)])
    ∧ ((logCsvRow ⟨⟨2026, 3, 7, 9, 5, 30⟩, none, "Client Flagged Issue", "Pole #1",
        "Issue: leaning", none, none⟩)[1]? = some "System/Client")
    ∧ tsShaped (strftimeTs ⟨2026, 3, 7, 9, 5, 30⟩) := by
  refine ⟨by decide, ?_, ?_⟩
  · exact (log_export_format [⟨⟨2026, 3, 7, 9, 5, 30⟩, none, "Client Flagged Issue",
      "Pole #1", "Issue: leaning", none, none⟩]).2.2.2.2.2.1
      ⟨⟨2026, 3, 7, 9, 5, 30⟩, none, "Client Flagged Issue", "Pole #1", "Issue: leaning",
        none, none⟩ (by decide) rfl
  · exact (log_export_format [⟨⟨2026, 3, 7, 9, 5, 30⟩, none, "Client Flagged Issue",
      "Pole #1", "Issue: leaning", none, none⟩]).2.2.2.2.1
      ⟨⟨2026, 3, 7, 9, 5, 30⟩, none, "Client Flagged Issue", "Pole #1", "Issue: leaning",
        none, none⟩ (by decide) (by decide) (by decide) (by decide) (by decide) (by decide)
      (by decide)
